import Mathlib

/-!
Verification of the mavlog2csv converter (src/mavlog2csv.py).

The Python source is shallowly embedded below:
* Python scalar values become the `Value` inductive; Python truthiness and
  `==` (with numeric cross-type coercion) are modelled by `Value.truthy`
  and `pyEq`.
* A pymavlink `MAVLink_message` becomes `Message`: a type tag, the
  wall-clock `_timestamp` (an exact rational standing for the Python
  float), and a named-attribute list.  `Message.getattr` is Python
  `getattr` with default.
* The record source (`mav_conn.recv_match`) is modelled by an arbitrary
  finite list of messages: the list holds exactly the successive non-`None`
  results until `recv_match` first returns `None` (at which point the
  source loop breaks).  The type filter passed to `recv_match` is recorded
  but does not constrain the list, since a source is free to ignore it
  (the unit-test stub does).
* Fallible Python code is embedded in `Except PyErr` / paired with an
  `Option PyErr`; an `AttributeError`, `TypeError` or `ValueError` raised
  mid-loop shows up as the `err` component, with whatever had been yielded
  or written before it in the list component.
* `datetime.datetime.fromtimestamp` is an external library call; it is
  modelled in UTC (a fixed zero local offset) with the standard
  civil-from-days calendar algorithm; no claim depends on the timezone or
  on the produced date/time strings.
-/

deriving instance DecidableEq for Except

namespace Mavlog

/-- Python scalar values as they occur in telemetry messages.  A Python
float is carried as an exact rational. -/
inductive Value where
  | intV (n : ℤ)
  | ratV (q : ℚ)
  | strV (s : String)
  | boolV (b : Bool)
  | noneV
deriving DecidableEq, Repr

/-- Python truthiness of a scalar (`bool(v)`): zero, the empty string,
`False` and `None` are falsy. -/
def Value.truthy : Value → Bool
  | .intV n => n != 0
  | .ratV q => q != 0
  | .strV s => s != ""
  | .boolV b => b
  | .noneV => false

/-- Numeric view of a value, for Python cross-type numeric comparison
(`True == 1`, `10.0 == 10`). -/
def Value.toRat? : Value → Option ℚ
  | .intV n => some (n : ℚ)
  | .ratV q => some q
  | .boolV b => some (if b then 1 else 0)
  | _ => none

/-- Python `==` on scalars: numeric values compare by value across types,
everything else structurally. -/
def pyEq (a b : Value) : Bool :=
  match a.toRat?, b.toRat? with
  | some x, some y => x == y
  | _, _ => a == b

/-- One decoded mavlink message: `get_type()`, `_timestamp`, and the named
attributes (`TimeUS`, `Id`, requested data columns, ...). -/
structure Message where
  typ : String
  timestamp : ℚ
  fields : List (String × Value)
deriving DecidableEq, Repr

/-- Python `getattr(message, name, None)` restricted to the data
attributes: first binding of `name` in the attribute list, if any. -/
def Message.getattr (m : Message) (name : String) : Option Value :=
  (m.fields.find? (fun p => p.1 == name)).map (·.2)

/-- Exceptions the embedded code can raise. -/
inductive PyErr where
  | attributeError
  | typeError
  | valueError
deriving DecidableEq, Repr

/-- Embedding of `is_message_bad`: the message is `None` (stream exhausted) or tagged
with the malformed-marker type.  A `MAVLink_message` object is always
truthy, so the `message and` conjunct never changes the result. -/
def is_message_bad : Option Message → Bool
  | none => true
  | some m => m.typ == "BAD_DATA"

/-- A word character of the pattern `\w`: letter, digit, or underscore
(ASCII; the claims only exercise ASCII inputs). -/
def isWordChar (c : Char) : Bool := c.isAlphanum || c == '_'

/-- Embedding of `parse_cli_column`: match `cli_col` against the pattern
`(\w+)\.(\w+)` anchored at the start only (Python `re.match`), returning
the two captured groups or raising `ValueError`.  Because word characters
and the period are disjoint, the greedy groups are the maximal word-runs:
group 1 is the longest word prefix, which must be followed by a period and
at least one word character; group 2 is the longest word run after that
period; anything after group 2 is ignored. -/
def parse_cli_column (s : String) : Except PyErr (String × String) :=
  let cs := s.toList
  let t := cs.takeWhile isWordChar
  match cs.dropWhile isWordChar with
  | '.' :: rest =>
    let f := rest.takeWhile isWordChar
    if t.isEmpty || f.isEmpty then .error .valueError
    else .ok (⟨t⟩, ⟨f⟩)
  | _ => .error .valueError

/-- Result of running the `while True` receive loop of
`iter_mavlink_messages` over a source: the messages given to `yield` in
order, the exception (if any) that escaped the loop, and the final
`n_armed` counter. -/
structure LoopRes where
  yielded : List Message
  err : Option PyErr
  armed : ℕ
deriving DecidableEq, Repr

/-- The receive loop of `iter_mavlink_messages` (source lines 80-98):
break on `None` (end of the list), skip `BAD_DATA`, on an `"EV"` event
read `message.Id` (an `AttributeError` if absent) and count it as an arm
when `Id == 10`, never yield an `"EV"`, skip while `n_armed <
skip_n_arms`, otherwise yield.  `skip_n_arms` is a Python int, so it is
embedded as `ℤ`. -/
def iterLoop (skip_n_arms : ℤ) : List Message → ℕ → LoopRes
  | [], n_armed => ⟨[], none, n_armed⟩
  | m :: rest, n_armed =>
    if is_message_bad (some m) then iterLoop skip_n_arms rest n_armed
    else if m.typ == "EV" then
      match m.getattr "Id" with
      | none => ⟨[], some .attributeError, n_armed⟩
      | some v =>
        iterLoop skip_n_arms rest (if pyEq v (.intV 10) then n_armed + 1 else n_armed)
    else if (n_armed : ℤ) < skip_n_arms then iterLoop skip_n_arms rest n_armed
    else
      let r := iterLoop skip_n_arms rest n_armed
      ⟨m :: r.yielded, r.err, r.armed⟩

/-- Observable outcome of `iter_mavlink_messages`: what it yields, the
exception (if any) it raises, the caller's `types` set after the call
(the function copies the set before mutating it, so this is the argument
itself; without the `types.copy()` line it would be the mutated
`insert "EV" types`), and the filter set actually passed down to
`recv_match`. -/
structure IterResult where
  yielded : List Message
  err : Option PyErr
  callerTypesAfter : Finset String
  sourceFilter : Finset String
deriving DecidableEq

/-- Embedding of `iter_mavlink_messages(device, types, skip_n_arms)` (source lines
70-98), with the source's responses given as `stream`. -/
def iter_mavlink_messages (stream : List Message) (types : Finset String)
    (skip_n_arms : ℤ) : IterResult :=
  let localTypes := insert "EV" types
  let r := iterLoop skip_n_arms stream 0
  ⟨r.yielded, r.err, types, localTypes⟩

/-! ### The arm-gate state machine, written from the specification

Spec 4.2: "states = GATE_CLOSED(n), GATE_OPEN, transition GATE_CLOSED(n) →
GATE_CLOSED(n+1) on each sentinel arm event, → GATE_OPEN once n+1 ==
requiredArms; GATE_OPEN is absorbing.  Initial state GATE_CLOSED(0) (or
GATE_OPEN directly if requiredArms == 0)."  Bad records are skipped, a
sentinel event is never yielded, and a non-sentinel, non-bad record is
yielded exactly when the gate is open. -/

/-- Gate state of the specification's state machine. -/
inductive GateState where
  | closed (n : ℕ)
  | opened
deriving DecidableEq, Repr

/-- Modelled from the spec: initial gate state. -/
def gateInit (requiredArms : ℕ) : GateState :=
  if requiredArms = 0 then .opened else .closed 0

/-- Modelled from the spec: transition on one sentinel arm event. -/
def gateOnArm (requiredArms : ℕ) : GateState → GateState
  | .closed n => if n + 1 = requiredArms then .opened else .closed (n + 1)
  | .opened => .opened

/-- Modelled from the spec: an arm event is a record of the sentinel event
type whose `Id` compares equal to 10. -/
def specIsArm (m : Message) : Bool :=
  m.typ == "EV" && (m.getattr "Id").any (fun v => pyEq v (.intV 10))

/-- Modelled from the spec: run of the gate machine over a record stream,
collecting the records it yields. -/
def gateRun (requiredArms : ℕ) (st : GateState) : List Message → List Message
  | [] => []
  | m :: rest =>
    if is_message_bad (some m) then gateRun requiredArms st rest
    else if m.typ == "EV" then
      gateRun requiredArms (if specIsArm m then gateOnArm requiredArms st else st) rest
    else match st with
      | .opened => m :: gateRun requiredArms st rest
      | .closed _ => gateRun requiredArms st rest

/-! ### Row projection (`message_to_row`) -/

/-- Product of two rationals through `mkRat`, so that concrete witnesses
evaluate inside the kernel (the library `Rat.mul` is `@[irreducible]`).
`qMul_eq_mul` below proves it is exactly multiplication on `ℚ`. -/
def qMul (a b : ℚ) : ℚ := mkRat (a.num * b.num) (a.den * b.den)

/-- Difference of two rationals through `Rat.divInt`; `qSub_eq_sub` below
proves it is exactly subtraction on `ℚ`. -/
def qSub (a b : ℚ) : ℚ :=
  Rat.divInt (a.num * (b.den : ℤ) - b.num * (a.den : ℤ)) ((a.den : ℤ) * (b.den : ℤ))

/-- Quotient of two rationals through `Rat.divInt` (zero when dividing by
zero, as for `ℚ` division); `qDiv_eq_div` below proves it is exactly
division on `ℚ`. -/
def qDiv (a b : ℚ) : ℚ := Rat.divInt (a.num * (b.den : ℤ)) ((a.den : ℤ) * b.num)

/-- Round-half-even of a rational to an integer, the tie-breaking rule of
Python `round`. -/
def roundHalfEven (q : ℚ) : ℤ :=
  let f := ⌊q⌋
  let r := qSub q (f : ℚ)
  if r < mkRat 1 2 then f
  else if mkRat 1 2 < r then f + 1
  else if Even f then f else f + 1

/-- Embedding of `round(x, 2)`: round to two decimal places.  The Python call rounds
the binary float nearest to `x`; the model rounds the exact rational,
which the spec accepts ("round-half-to-even or round-half-up, either
acceptable"). -/
def round2 (q : ℚ) : ℚ := qDiv (roundHalfEven (qMul q 100) : ℚ) 100

/-- Decimal digits of `n` left-padded with zeros to width `w`. -/
def padNat (w : ℕ) (n : ℕ) : String :=
  let s := toString n
  if s.length < w then ⟨List.replicate (w - s.length) '0'⟩ ++ s else s

/-- Civil (proleptic Gregorian) year/month/day of a day count relative to
1970-01-01, by the standard era-based algorithm; divisions truncate toward
zero and all operands are non-negative for the post-epoch timestamps the
claims use. -/
def civilFromDays (z0 : ℤ) : ℤ × ℤ × ℤ :=
  let z := z0 + 719468
  let era := Int.tdiv (if 0 ≤ z then z else z - 146096) 146097
  let doe := z - era * 146097
  let yoe := Int.tdiv (doe - Int.tdiv doe 1460 + Int.tdiv doe 36524 - Int.tdiv doe 146096) 365
  let y := yoe + era * 400
  let doy := doe - (365 * yoe + Int.tdiv yoe 4 - Int.tdiv yoe 100)
  let mp := Int.tdiv (5 * doy + 2) 153
  let d := doy - Int.tdiv (153 * mp + 2) 5 + 1
  let m := mp + (if mp < 10 then 3 else -9)
  (y + (if m ≤ 2 then 1 else 0), m, d)

/-- Embedding of `datetime.fromtimestamp(ts).date().isoformat()`, modelled in UTC. -/
def isoDate (ts : ℚ) : String :=
  let days := ⌊qDiv ts 86400⌋
  let ymd := civilFromDays days
  padNat 4 ymd.1.toNat ++ "-" ++ padNat 2 ymd.2.1.toNat ++ "-" ++ padNat 2 ymd.2.2.toNat

/-- Embedding of `datetime.fromtimestamp(ts).time().isoformat()`, modelled in UTC;
microseconds are printed only when non-zero, the sub-microsecond part of
the timestamp is truncated. -/
def isoTime (ts : ℚ) : String :=
  let days := ⌊qDiv ts 86400⌋
  let u := (⌊qMul (qSub ts (qMul (days : ℚ) 86400)) 1000000⌋).toNat
  padNat 2 (u / 3600000000) ++ ":" ++ padNat 2 (u / 60000000 % 60) ++ ":" ++
    padNat 2 (u / 1000000 % 60) ++ (if u % 1000000 = 0 then "" else "." ++ padNat 6 (u % 1000000))

/-- Embedding of `message_to_row(message, columns)` (source lines 101-115).  The output
dict is an association list in insertion order: `TimeUS` (the raw
attribute; `AttributeError` if absent), `TimeS` (`round(TimeUS / 1_000_000,
2)`, a `TypeError` if `TimeUS` is not a number), `Date` and `Time` from the
wall-clock timestamp, then for each requested column the key
`f"{message.get_type()}.{col}"` with `getattr(message, col, None) or ""`:
the raw value when present and truthy, the empty string otherwise. -/
def message_to_row (m : Message) (columns : List String) :
    Except PyErr (List (String × Value)) :=
  match m.getattr "TimeUS" with
  | none => .error .attributeError
  | some timeUS =>
    match timeUS.toRat? with
    | none => .error .typeError
    | some q =>
      .ok ([("TimeUS", timeUS),
            ("TimeS", .ratV (round2 (qDiv q 1000000))),
            ("Date", .strV (isoDate m.timestamp)),
            ("Time", .strV (isoTime m.timestamp))] ++
           columns.map (fun col =>
             (m.typ ++ "." ++ col,
              match m.getattr col with
              | some v => if v.truthy then v else .strV ""
              | none => .strV "")))

/-- Python dict lookup on the association-list row (keys are inserted at
most once per distinct string, so the first binding is the binding). -/
def rowLookup (row : List (String × Value)) (key : String) : Option Value :=
  (row.find? (fun p => p.1 == key)).map (·.2)

/-! ### CSV sink and orchestrator (`mavlog2csv`) -/

/-- Double every embedded quote character (the csv module's
`doublequote=True` escaping). -/
def dupQuotes : List Char → List Char
  | [] => []
  | c :: rest => if c = '"' then c :: c :: dupQuotes rest else c :: dupQuotes rest

/-- One CSV field under `QUOTE_ALL`: always enclosed in double quotes,
embedded double quotes doubled. -/
def quoteCsv (s : String) : String := "\"" ++ (⟨dupQuotes s.data⟩ : String) ++ "\""

/-- One CSV line: every cell quoted, joined by the comma delimiter (the
trailing CRLF terminator is left off the modelled lines). -/
def csvLine (cells : List String) : String :=
  String.intercalate "," (cells.map quoteCsv)

/-- Python `str()` of a telemetry value as the csv module renders it.
`float` repr is approximated by exact decimal rendering, which agrees with
Python on the hundredth-denominated values this pipeline produces; no
claim depends on the rendering of any other rational. -/
def floatStr (q : ℚ) : String :=
  let sign := if q < 0 then "-" else ""
  let n := q.num.natAbs
  if q.den = 1 then sign ++ toString n ++ ".0"
  else if q.den ∣ 100 then
    let h := n * (100 / q.den)
    let fr := h % 100
    sign ++ toString (h / 100) ++ "." ++
      (if fr % 10 = 0 then toString (fr / 10) else padNat 2 fr)
  else sign ++ toString n ++ "/" ++ toString q.den

/-- Embedding of `str(value)` for the scalar values. -/
def pyStr : Value → String
  | .intV n => toString n
  | .ratV q => floatStr q
  | .strV s => s
  | .boolV b => if b then "True" else "False"
  | .noneV => "None"

/-- The string the csv writer emits for one header key: the row's value if
the key is bound (`None` becomes the empty field), the empty restval when
the row has no binding for the key. -/
def csvCell (v? : Option Value) : String :=
  match v? with
  | none => ""
  | some .noneV => ""
  | some v => pyStr v

/-- Embedding of `DictWriter.writerow`: raise `ValueError` when the row dict contains a
key not among the field names, else emit the row's cells in header
order. -/
def writerow (header : List String) (row : List (String × Value)) : Except PyErr String :=
  if row.all (fun p => header.contains p.1) then
    .ok (csvLine (header.map (fun k => csvCell (rowLookup row k))))
  else .error .valueError

/-- Append one parsed column to the `defaultdict(list)` mapping message
type → column names, preserving first-appearance order of types. -/
def addColumn (acc : List (String × List String)) (t c : String) :
    List (String × List String) :=
  match acc with
  | [] => [(t, [c])]
  | (t', cs) :: rest =>
    if t' == t then (t', cs ++ [c]) :: rest else (t', cs) :: addColumn rest t c

/-- The map `message_type_columns`: the mapping message type → requested column
names, built from the parsed columns. -/
def buildTypeCols (parsed : List (String × String)) : List (String × List String) :=
  parsed.foldl (fun acc p => addColumn acc p.1 p.2) []

/-- The message types that have at least one requested column. -/
def typeKeys (tc : List (String × List String)) : List String := tc.map (·.1)

/-- Lookup `message_type_columns[t]` for a type `t` known to be in the map. -/
def colsFor (tc : List (String × List String)) (t : String) : List String :=
  ((tc.find? (fun p => p.1 == t)).map (·.2)).getD []

/-- The fixed leading header fields. -/
def fixedHeader : List String := ["TimeUS", "TimeS", "Date", "Time"]

/-- The body of the output loop of `mavlog2csv` (source lines 153-157)
applied to the messages the iterator yields: a row is projected and
written only when the message's type has requested columns; the first
exception stops the run with the lines written so far. -/
def writeRows (typeCols : List (String × List String)) (header : List String) :
    List Message → List String × Option PyErr
  | [] => ([], none)
  | m :: rest =>
    if (typeKeys typeCols).contains m.typ then
      match message_to_row m (colsFor typeCols m.typ) with
      | .error e => ([], some e)
      | .ok row =>
        match writerow header row with
        | .error e => ([], some e)
        | .ok line =>
          let r := writeRows typeCols header rest
          (line :: r.1, r.2)
    else writeRows typeCols header rest

/-- The whole-run output: the CSV lines written (header first) and the
exception, if any, that aborted the run. -/
structure RunResult where
  lines : List String
  err : Option PyErr
deriving DecidableEq, Repr

/-- Embedding of `list(map(parse_cli_column, columns))`: each column spec parsed in
order, the first failure raising out of `mavlog2csv` before any output. -/
def parseColumns : List String → Except PyErr (List (String × String))
  | [] => .ok []
  | c :: rest =>
    match parse_cli_column c with
    | .error e => .error e
    | .ok p =>
      match parseColumns rest with
      | .error e => .error e
      | .ok ps => .ok (p :: ps)

/-- Embedding of `mavlog2csv(device, columns, output, skip_n_arms)` (source lines
118-157), with the source's responses given as `stream`: parse the column
specs (a `ValueError` there aborts before anything is written), derive the
type filter and the type → columns map, write the quoted header, then one
quoted row per yielded message of a requested type.  An exception from the
writing loop surfaces before one the exhausted iterator would raise. -/
def mavlog2csv (stream : List Message) (columns : List String) (skip_n_arms : ℤ) :
    RunResult :=
  match parseColumns columns with
  | .error e => ⟨[], some e⟩
  | .ok parsed =>
    let typeCols := buildTypeCols parsed
    let header := fixedHeader ++ columns
    let itr := iter_mavlink_messages stream (parsed.map Prod.fst).toFinset skip_n_arms
    let r := writeRows typeCols header itr.yielded
    ⟨csvLine header :: r.1, match r.2 with | some e => some e | none => itr.err⟩

/-- The parsed column specs of a run, empty when parsing fails (every
claim that uses this is vacuous or unreachable in the failing case). -/
def parsedColumnsOf (columns : List String) : List (String × String) :=
  ((parseColumns columns).toOption).getD []

/-- The messages of a run that produce one data row each: the iterator's
yields restricted to the types with requested columns. -/
def acceptedOf (stream : List Message) (columns : List String) (skip_n_arms : ℤ) :
    List Message :=
  (iter_mavlink_messages stream
      ((parsedColumnsOf columns).map Prod.fst).toFinset skip_n_arms).yielded.filter
    (fun m => (typeKeys (buildTypeCols (parsedColumnsOf columns))).contains m.typ)

/-- The CSV data line a single accepted message produces: its projected
row read back in header order, every cell quoted (the `.error` branch is
unreachable on accepted messages of a successful run). -/
def projectedLine (columns : List String) (typeCols : List (String × List String))
    (m : Message) : String :=
  match message_to_row m (colsFor typeCols m.typ) with
  | .ok row => csvLine ((fixedHeader ++ columns).map (fun k => csvCell (rowLookup row k)))
  | .error _ => ""

/-! ### The connection context manager (`mavlink_connect`) -/

/-- Embedding of `with mavlink_connect(device) as conn:` around a body with the given
outcome.  `mavlink_connect` is a `@contextlib.contextmanager` generator
whose body is `conn = ...; yield conn; conn.close()`, with no
`try`/`finally`: on normal completion of the `with` body the generator is
resumed past the `yield` and `conn.close()` runs; when an exception
propagates out of the body, the `with` protocol throws it into the
generator at the `yield` point and it escapes immediately, so the
`conn.close()` line after the `yield` never runs.  The boolean records
whether `conn.close()` ran. -/
def mavlink_connect_run {α : Type} (body : Except PyErr α) : Except PyErr α × Bool :=
  match body with
  | .ok a => (.ok a, true)
  | .error e => (.error e, false)

/-! ### Auxiliary predicates for the theorems -/

/-- Relation between the loop counter `n_armed` and a state of the
specification's gate machine: a closed state holds the exact count, which
is still short of the requirement; the open state means the requirement
has been met. -/
def gateInv (requiredArms n_armed : ℕ) : GateState → Prop
  | .closed k => k = n_armed ∧ n_armed < requiredArms
  | .opened => requiredArms ≤ n_armed

/-- The match relation of the column pattern, stated independently of the
parser: the string decomposes into a non-empty word token, a period, a
non-empty word token, and a remainder that does not start with a word
character (so the two tokens are the maximal word-runs). -/
def ColumnMatch (s t f : String) : Prop :=
  t.data ≠ [] ∧ f.data ≠ [] ∧
  (∀ c ∈ t.data, isWordChar c = true) ∧ (∀ c ∈ f.data, isWordChar c = true) ∧
  ∃ rest : List Char, s.data = t.data ++ '.' :: (f.data ++ rest) ∧
    ∀ c, rest.head? = some c → isWordChar c = false

/-- Split a character list on a separator (used only to state the
claim's "exactly one period" reading of well-formedness). -/
def splitOnChar (sep : Char) : List Char → List (List Char)
  | [] => [[]]
  | c :: rest =>
    let r := splitOnChar sep rest
    if c = sep then [] :: r
    else
      match r with
      | [] => [[c]]
      | h :: tl => (c :: h) :: tl

/-- The claim's notion of a well-formed column spec: exactly one period
separating two non-empty word tokens. -/
def claimWellFormed (s : String) : Bool :=
  match splitOnChar '.' s.data with
  | [t, f] => !t.isEmpty && !f.isEmpty && t.all isWordChar && f.all isWordChar
  | _ => false

/-! ### Concrete fixtures for the witnesses -/

/-- A requested-type message seen before the arm event. -/
def msgTEST1 : Message := ⟨"TEST", 0, [("TimeUS", .intV 1000000), ("col1", .strV "a")]⟩

/-- The arm sentinel event (`EV` with `Id == 10`). -/
def msgARM : Message := ⟨"EV", 0, [("Id", .intV 10), ("TimeUS", .intV 2000000)]⟩

/-- A requested-type message seen after the arm event. -/
def msgTEST2 : Message := ⟨"TEST", 0, [("TimeUS", .intV 5000000), ("col1", .strV "used")]⟩

/-- A message of a type without requested columns. -/
def msgOTHER : Message := ⟨"OTHER", 0, [("TimeUS", .intV 3000000), ("col1", .strV "x")]⟩

/-- A message lacking the mandatory `TimeUS` attribute. -/
def msgNoTime : Message := ⟨"TEST", 0, [("col1", .strV "x")]⟩

/-! ## Theorems

First, the sanity lemmas identifying the kernel-computable rational
helpers with the field operations of `ℚ`. -/

theorem qMul_eq_mul (a b : ℚ) : qMul a b = a * b := by
  unfold qMul
  rw [Rat.mkRat_eq_div]
  push_cast
  rw [← div_mul_div_comm, Rat.num_div_den, Rat.num_div_den]

theorem qDiv_eq_div (a b : ℚ) : qDiv a b = a / b := by
  unfold qDiv
  rw [Rat.divInt_eq_div]
  rcases eq_or_ne b 0 with hb | hb
  · subst hb; simp
  · have hbn : (b.num : ℚ) ≠ 0 := Int.cast_ne_zero.2 (Rat.num_ne_zero.2 hb)
    have hbd : (b.den : ℚ) ≠ 0 := Nat.cast_ne_zero.2 b.den_nz
    have had : (a.den : ℚ) ≠ 0 := Nat.cast_ne_zero.2 a.den_nz
    have ha : a * (a.den : ℚ) = (a.num : ℚ) := (eq_div_iff had).1 (Rat.num_div_den a).symm
    have hb2 : b * (b.den : ℚ) = (b.num : ℚ) := (eq_div_iff hbd).1 (Rat.num_div_den b).symm
    push_cast
    rw [div_eq_div_iff (mul_ne_zero had hbn) hb, ← ha, ← hb2]
    ring

theorem qSub_eq_sub (a b : ℚ) : qSub a b = a - b := by
  unfold qSub
  rw [Rat.divInt_eq_div]
  have hbd : (b.den : ℚ) ≠ 0 := Nat.cast_ne_zero.2 b.den_nz
  have had : (a.den : ℚ) ≠ 0 := Nat.cast_ne_zero.2 a.den_nz
  have ha : a * (a.den : ℚ) = (a.num : ℚ) := (eq_div_iff had).1 (Rat.num_div_den a).symm
  have hb2 : b * (b.den : ℚ) = (b.num : ℚ) := (eq_div_iff hbd).1 (Rat.num_div_den b).symm
  push_cast
  rw [div_eq_iff (mul_ne_zero had hbd), ← ha, ← hb2]
  ring

/-- The rounding helper, restated with the ordinary `ℚ` operations. -/
theorem roundHalfEven_spec (q : ℚ) :
    roundHalfEven q =
      if q - (⌊q⌋ : ℚ) < 1 / 2 then ⌊q⌋
      else if 1 / 2 < q - (⌊q⌋ : ℚ) then ⌊q⌋ + 1
      else if Even ⌊q⌋ then ⌊q⌋ else ⌊q⌋ + 1 := by
  show (if qSub q ((⌊q⌋ : ℤ) : ℚ) < mkRat 1 2 then ⌊q⌋
        else if mkRat 1 2 < qSub q ((⌊q⌋ : ℤ) : ℚ) then ⌊q⌋ + 1
        else if Even ⌊q⌋ then ⌊q⌋ else ⌊q⌋ + 1) = _
  rw [qSub_eq_sub, show (mkRat 1 2 : ℚ) = 1 / 2 by rw [Rat.mkRat_eq_div]; norm_num]

/-- Two-decimal rounding, restated with the ordinary `ℚ` operations. -/
theorem round2_spec (q : ℚ) : round2 q = ((roundHalfEven (q * 100) : ℤ) : ℚ) / 100 := by
  unfold round2
  rw [qDiv_eq_div, qMul_eq_mul]

/-! ### The sentinel type never escapes the iterator (C2) -/

theorem iterLoop_yielded_not_ev (skip_n_arms : ℤ) (stream : List Message) :
    ∀ (n : ℕ) (m : Message),
    m ∈ (iterLoop skip_n_arms stream n).yielded → m.typ ≠ "EV" := by
  induction stream with
  | nil => intro n m hm; simp [iterLoop] at hm
  | cons x rest ih =>
    intro n m hm
    by_cases hb : is_message_bad (some x) = true
    · rw [show iterLoop skip_n_arms (x :: rest) n = iterLoop skip_n_arms rest n by
        rw [iterLoop, if_pos hb]] at hm
      exact ih n m hm
    · by_cases hev : (x.typ == "EV") = true
      · cases hid : x.getattr "Id" with
        | none =>
          rw [show iterLoop skip_n_arms (x :: rest) n = ⟨[], some .attributeError, n⟩ by
            rw [iterLoop, if_neg hb, if_pos hev, hid]] at hm
          simp at hm
        | some v =>
          rw [show iterLoop skip_n_arms (x :: rest) n
              = iterLoop skip_n_arms rest (if pyEq v (.intV 10) then n + 1 else n) by
            rw [iterLoop, if_neg hb, if_pos hev, hid]] at hm
          exact ih _ m hm
      · by_cases hlt : ((n : ℤ) < skip_n_arms)
        · rw [show iterLoop skip_n_arms (x :: rest) n = iterLoop skip_n_arms rest n by
            rw [iterLoop, if_neg hb, if_neg hev, if_pos hlt]] at hm
          exact ih n m hm
        · rw [show iterLoop skip_n_arms (x :: rest) n
              = ⟨x :: (iterLoop skip_n_arms rest n).yielded,
                 (iterLoop skip_n_arms rest n).err, (iterLoop skip_n_arms rest n).armed⟩ by
            rw [iterLoop, if_neg hb, if_neg hev, if_neg hlt]] at hm
          rcases List.mem_cons.1 hm with h | h
          · subst h; intro hc; rw [hc] at hev; simp at hev
          · exact ih n m h

/-- C2: for every input stream and every configuration,
`iter_mavlink_messages` never yields a record of the sentinel event type
`"EV"` to its caller, whatever the arm-gate state and the event's `Id`
value (an `"EV"` without an `Id` aborts the iterator without being
yielded). -/
theorem sentinel_never_yielded (stream : List Message) (types : Finset String)
    (skip_n_arms : ℤ) (m : Message)
    (hm : m ∈ (iter_mavlink_messages stream types skip_n_arms).yielded) :
    m.typ ≠ "EV" :=
  iterLoop_yielded_not_ev skip_n_arms stream 0 m hm

theorem sentinel_never_yielded_witness :
    msgTEST1 ∈ (iter_mavlink_messages [msgARM, msgTEST1] {"TEST"} 0).yielded ∧
    msgTEST1.typ ≠ "EV" :=
  ⟨by decide, sentinel_never_yielded [msgARM, msgTEST1] {"TEST"} 0 msgTEST1 (by decide)⟩

/-! ### The caller's type set is not mutated (C9) -/

/-- C9: `iter_mavlink_messages` copies the `types` set before adding the
sentinel type, so after the call the caller's set is exactly what it was;
in particular it has not gained `"EV"`, even though the filter passed to
the source is the copy with `"EV"` added. -/
theorem caller_types_not_mutated (stream : List Message) (types : Finset String)
    (skip_n_arms : ℤ) :
    (iter_mavlink_messages stream types skip_n_arms).callerTypesAfter = types ∧
    (iter_mavlink_messages stream types skip_n_arms).sourceFilter = insert "EV" types ∧
    ("EV" ∉ types →
      "EV" ∉ (iter_mavlink_messages stream types skip_n_arms).callerTypesAfter) :=
  ⟨rfl, rfl, fun h => h⟩

theorem caller_types_not_mutated_witness :
    "EV" ∉ ({"TEST"} : Finset String) ∧
    "EV" ∉ (iter_mavlink_messages [msgARM] {"TEST"} 0).callerTypesAfter :=
  ⟨by decide, (caller_types_not_mutated [msgARM] {"TEST"} 0).2.2 (by decide)⟩

/-! ### Missing `TimeUS` is fatal (C7) -/

/-- C7: projecting a record without a `TimeUS` attribute raises
(`AttributeError`), for every such record and every column list; the
record is neither skipped nor given a default. -/
theorem missing_timeus_fatal (m : Message) (columns : List String)
    (h : m.getattr "TimeUS" = none) :
    message_to_row m columns = .error .attributeError := by
  unfold message_to_row
  rw [h]

theorem missing_timeus_fatal_witness :
    msgNoTime.getattr "TimeUS" = none ∧
    message_to_row msgNoTime ["col1"] = .error .attributeError :=
  ⟨by decide, missing_timeus_fatal msgNoTime ["col1"] (by decide)⟩

/-! ### Connection teardown (C8)

The claim says the connection is closed on every exit path.  In the code,
`mavlink_connect` is a `@contextlib.contextmanager` whose generator body
has no `try`/`finally` around the `yield`, so `conn.close()` runs only
when the `with` body completes normally; an exception propagating out of
the body escapes at the `yield` and the close line is skipped.  The
theorem below evaluates the embedded `with` protocol on both exit paths,
exhibiting the discrepancy. -/

/-- C8 evidence: the connection is closed on graceful completion but NOT
closed when an exception propagates out of the `with` body — the close
call after the bare `yield` is skipped on the exception path. -/
theorem connection_close_paths :
    (mavlink_connect_run (Except.ok () : Except PyErr Unit)).2 = true ∧
    (mavlink_connect_run (Except.error .attributeError : Except PyErr Unit)).2 = false :=
  ⟨rfl, rfl⟩

/-! ### Arm-gate refinement (C1)

The receive loop, run with counter `n_armed`, yields exactly what the
specification's gate machine yields from any state related to `n_armed`
by `gateInv` — provided every sentinel event carries an `Id` attribute,
as the data model requires (an `"EV"` without `Id` makes the code raise
`AttributeError` mid-stream, which no state machine run matches). -/

theorem gateRun_cons (requiredArms : ℕ) (st : GateState) (m : Message)
    (rest : List Message) :
    gateRun requiredArms st (m :: rest)
      = if is_message_bad (some m) then gateRun requiredArms st rest
        else if m.typ == "EV" then
          gateRun requiredArms (if specIsArm m then gateOnArm requiredArms st else st) rest
        else match st with
          | .opened => m :: gateRun requiredArms st rest
          | .closed _ => gateRun requiredArms st rest := rfl

theorem iterLoop_eq_gateRun (requiredArms : ℕ) (stream : List Message) :
    ∀ (n : ℕ) (st : GateState), gateInv requiredArms n st →
    (∀ m ∈ stream, m.typ = "EV" → (m.getattr "Id").isSome = true) →
    (iterLoop (requiredArms : ℤ) stream n).yielded = gateRun requiredArms st stream := by
  induction stream with
  | nil => intro n st _ _; rfl
  | cons x rest ih =>
    intro n st hinv hid
    have hidr : ∀ m ∈ rest, m.typ = "EV" → (m.getattr "Id").isSome = true :=
      fun m hm => hid m (List.mem_cons_of_mem x hm)
    by_cases hb : is_message_bad (some x) = true
    · rw [show iterLoop (requiredArms : ℤ) (x :: rest) n = iterLoop (requiredArms : ℤ) rest n by
        rw [iterLoop, if_pos hb]]
      rw [show gateRun requiredArms st (x :: rest) = gateRun requiredArms st rest by
        rw [gateRun_cons, if_pos hb]]
      exact ih n st hinv hidr
    · by_cases hev : (x.typ == "EV") = true
      · obtain ⟨v, hv⟩ := Option.isSome_iff_exists.1 (hid x (List.mem_cons_self x rest)
          (beq_iff_eq.1 hev))
        have harm : specIsArm x = pyEq v (.intV 10) := by
          unfold specIsArm
          rw [hev, hv]
          simp [Option.any]
        rw [show iterLoop (requiredArms : ℤ) (x :: rest) n
            = iterLoop (requiredArms : ℤ) rest (if pyEq v (.intV 10) then n + 1 else n) by
          rw [iterLoop, if_neg hb, if_pos hev, hv]]
        rw [show gateRun requiredArms st (x :: rest)
            = gateRun requiredArms (if specIsArm x then gateOnArm requiredArms st else st) rest by
          rw [gateRun_cons, if_neg hb, if_pos hev]]
        rw [harm]
        by_cases h10 : pyEq v (.intV 10) = true
        · rw [if_pos h10, if_pos h10]
          refine ih (n + 1) (gateOnArm requiredArms st) ?_ hidr
          cases st with
          | opened =>
            exact Nat.le_succ_of_le hinv
          | closed k =>
            obtain ⟨hk, hlt⟩ := hinv
            show gateInv requiredArms (n + 1)
              (if k + 1 = requiredArms then GateState.opened else GateState.closed (k + 1))
            by_cases he : k + 1 = requiredArms
            · rw [if_pos he]
              show requiredArms ≤ n + 1
              omega
            · rw [if_neg he]
              exact ⟨by omega, by omega⟩
        · rw [if_neg h10, if_neg h10]
          exact ih n st hinv hidr
      · cases st with
        | closed k =>
          obtain ⟨hk, hlt⟩ := hinv
          have hlt' : (n : ℤ) < (requiredArms : ℤ) := by exact_mod_cast hlt
          rw [show iterLoop (requiredArms : ℤ) (x :: rest) n
              = iterLoop (requiredArms : ℤ) rest n by
            rw [iterLoop, if_neg hb, if_neg hev, if_pos hlt']]
          rw [show gateRun requiredArms (.closed k) (x :: rest)
              = gateRun requiredArms (.closed k) rest by
            rw [gateRun_cons, if_neg hb, if_neg hev]]
          exact ih n (.closed k) ⟨hk, hlt⟩ hidr
        | opened =>
          have hge : ¬ ((n : ℤ) < (requiredArms : ℤ)) := by
            rw [not_lt]
            exact_mod_cast hinv
          rw [show iterLoop (requiredArms : ℤ) (x :: rest) n
              = ⟨x :: (iterLoop (requiredArms : ℤ) rest n).yielded,
                 (iterLoop (requiredArms : ℤ) rest n).err,
                 (iterLoop (requiredArms : ℤ) rest n).armed⟩ by
            rw [iterLoop, if_neg hb, if_neg hev, if_neg hge]]
          rw [show gateRun requiredArms .opened (x :: rest)
              = x :: gateRun requiredArms .opened rest by
            rw [gateRun_cons, if_neg hb, if_neg hev]]
          show x :: (iterLoop (requiredArms : ℤ) rest n).yielded = _
          rw [ih n .opened hinv hidr]

/-- C1: for every input stream whose sentinel events carry an `Id` (the
Record Source data model), every type set and every `skip_n_arms ≥ 0`,
`iter_mavlink_messages` yields exactly what the specification's one-way
gate machine yields: nothing before the count of `"EV"` records with
`Id == 10` reaches `skip_n_arms`, and every later non-sentinel, non-bad
record; the machine's open state is absorbing (the gate never closes
again) and `skip_n_arms = 0` starts it open. -/
theorem arm_gate_monotonicity (stream : List Message) (types : Finset String)
    (skip_n_arms : ℕ)
    (hid : ∀ m ∈ stream, m.typ = "EV" → (m.getattr "Id").isSome = true) :
    (iter_mavlink_messages stream types (skip_n_arms : ℤ)).yielded
      = gateRun skip_n_arms (gateInit skip_n_arms) stream := by
  have hinv : gateInv skip_n_arms 0 (gateInit skip_n_arms) := by
    unfold gateInit
    by_cases h : skip_n_arms = 0
    · rw [if_pos h]
      show skip_n_arms ≤ 0
      omega
    · rw [if_neg h]
      exact ⟨rfl, Nat.pos_of_ne_zero h⟩
  exact iterLoop_eq_gateRun skip_n_arms stream 0 (gateInit skip_n_arms) hinv hid

theorem arm_gate_monotonicity_witness :
    (∀ m ∈ [msgTEST1, msgARM, msgTEST2], m.typ = "EV" → (m.getattr "Id").isSome = true) ∧
    (iter_mavlink_messages [msgTEST1, msgARM, msgTEST2] {"TEST"} ((1 : ℕ) : ℤ)).yielded
      = gateRun 1 (gateInit 1) [msgTEST1, msgARM, msgTEST2] :=
  ⟨by decide, arm_gate_monotonicity [msgTEST1, msgARM, msgTEST2] {"TEST"} 1 (by decide)⟩

/-! ### Time fields of a projected row (C5) -/

/-- C5: in every successfully projected row, `TimeUS` is the record's
`TimeUS` attribute unmodified, and `TimeS` is that value divided by
1,000,000 and rounded to two decimal places (round-half-even ties, as
Python's `round`). -/
theorem time_fields_projection (m : Message) (columns : List String)
    (row : List (String × Value)) (v : Value) (q : ℚ)
    (hrow : message_to_row m columns = .ok row)
    (hv : m.getattr "TimeUS" = some v) (hq : v.toRat? = some q) :
    rowLookup row "TimeUS" = some v ∧
    rowLookup row "TimeS" = some (.ratV (round2 (q / 1000000))) := by
  unfold message_to_row at hrow
  simp only [hv, hq, Except.ok.injEq] at hrow
  subst hrow
  refine ⟨rfl, ?_⟩
  show some (Value.ratV (round2 (qDiv q 1000000))) = _
  rw [qDiv_eq_div]

theorem time_fields_projection_witness :
    rowLookup ((message_to_row msgTEST2 ["col1"]).toOption.getD []) "TimeUS"
      = some (.intV 5000000) ∧
    rowLookup ((message_to_row msgTEST2 ["col1"]).toOption.getD []) "TimeS"
      = some (.ratV (round2 (((5000000 : ℤ) : ℚ) / 1000000))) :=
  time_fields_projection msgTEST2 ["col1"]
    ((message_to_row msgTEST2 ["col1"]).toOption.getD []) (.intV 5000000)
    ((5000000 : ℤ) : ℚ) rfl rfl rfl

/-! ### Requested-column projection (C4) -/

theorem key_data (t c : String) : (t ++ "." ++ c).data = t.data ++ '.' :: c.data := by
  rw [String.data_append, String.data_append, List.append_assoc]
  rfl

theorem key_inj (t c₁ c₂ : String) (h : t ++ "." ++ c₁ = t ++ "." ++ c₂) : c₁ = c₂ := by
  have h₁ := congrArg String.data h
  rw [key_data, key_data] at h₁
  have h₂ := List.append_cancel_left h₁
  injection h₂ with _ h₃
  exact String.ext h₃

theorem key_ne_plain (k t c : String) (hk : '.' ∉ k.data) :
    (k == t ++ "." ++ c) = false := by
  rw [beq_eq_false_iff_ne]
  intro he
  apply hk
  rw [he, key_data]
  exact List.mem_append_right _ (List.mem_cons_self _ _)

theorem find?_skip_pair (key k : String) (v : Value) (l : List (String × Value))
    (hk : (k == key) = false) :
    List.find? (fun p => p.1 == key) ((k, v) :: l) = List.find? (fun p => p.1 == key) l :=
  List.find?_cons_of_neg l (by simp [hk])

theorem find?_pick_pair (key k : String) (v : Value) (l : List (String × Value))
    (hk : (k == key) = true) :
    List.find? (fun p => p.1 == key) ((k, v) :: l) = some (k, v) :=
  List.find?_cons_of_pos l (by simp [hk])

theorem find?_map_key (t : String) (g : String → Value) :
    ∀ (cols : List String) (col : String), col ∈ cols →
    (cols.map (fun c => (t ++ "." ++ c, g c))).find? (fun p => p.1 == t ++ "." ++ col)
      = some (t ++ "." ++ col, g col) := by
  intro cols
  induction cols with
  | nil => intro col h; simp at h
  | cons c rest ih =>
    intro col h
    rw [List.map_cons]
    by_cases hc : (t ++ "." ++ c == t ++ "." ++ col) = true
    · have hcc : c = col := key_inj t c col (beq_iff_eq.1 hc)
      subst hcc
      exact find?_pick_pair _ _ _ _ hc
    · rw [find?_skip_pair _ _ _ _ (by simpa using hc)]
      rcases List.mem_cons.1 h with h' | h'
      · exact absurd (by rw [h']; exact beq_iff_eq.2 rfl) hc
      · exact ih col h'

/-- C4: for every successfully projected row and every requested column,
the row binds the key `RecordType.FieldName` to the record's raw attribute
value when that attribute is present and truthy, and to the empty string
when the attribute is absent or falsy (zero, empty string, `False`,
`None`) — a present zero projects to the empty string, never to a
rendering of zero or `None`. -/
theorem column_value_projection (m : Message) (columns : List String)
    (row : List (String × Value)) (col : String)
    (hrow : message_to_row m columns = .ok row) (hcol : col ∈ columns) :
    rowLookup row (m.typ ++ "." ++ col)
      = some (((m.getattr col).filter Value.truthy).getD (.strV "")) := by
  unfold message_to_row at hrow
  cases hv : m.getattr "TimeUS" with
  | none => rw [hv] at hrow; exact absurd hrow (by simp)
  | some tv =>
    cases hq : tv.toRat? with
    | none =>
      simp only [hv, hq] at hrow
      exact absurd hrow (by simp)
    | some q =>
      simp only [hv, hq, Except.ok.injEq] at hrow
      subst hrow
      unfold rowLookup
      rw [List.cons_append, List.cons_append, List.cons_append, List.cons_append,
        List.nil_append]
      rw [find?_skip_pair _ _ _ _ (key_ne_plain "TimeUS" m.typ col (by decide)),
        find?_skip_pair _ _ _ _ (key_ne_plain "TimeS" m.typ col (by decide)),
        find?_skip_pair _ _ _ _ (key_ne_plain "Date" m.typ col (by decide)),
        find?_skip_pair _ _ _ _ (key_ne_plain "Time" m.typ col (by decide))]
      rw [find?_map_key m.typ _ columns col hcol]
      cases hval : m.getattr col with
      | none => rfl
      | some v =>
        simp only [Option.map_some, Option.filter]
        by_cases ht : v.truthy = true
        · rw [ht]; simp
        · rw [show v.truthy = false by simpa using ht]; simp

theorem column_value_projection_witness :
    rowLookup ((message_to_row msgTEST2 ["col1"]).toOption.getD [])
        (msgTEST2.typ ++ "." ++ "col1")
      = some (((msgTEST2.getattr "col1").filter Value.truthy).getD (.strV "")) :=
  column_value_projection msgTEST2 ["col1"]
    ((message_to_row msgTEST2 ["col1"]).toOption.getD []) "col1" rfl (by decide)

/-! ### Column spec parsing (C3)

The claim says parsing fails for every string that does not consist of
exactly one period between two word tokens.  The regex is anchored only at
the start, so a string such as `"GPS.Lat.Extra"` — which does not have
exactly one period — nevertheless parses to `("GPS", "Lat")`: the claim
is refuted by `parse_cli_column_claim_false` and the exact behaviour is
characterized by `parse_cli_column_ok_iff`. -/

theorem toList_eq_data (s : String) : s.toList = s.data := rfl

theorem takeWhile_all_append {p : Char → Bool} :
    ∀ (l₁ l₂ : List Char), (∀ c ∈ l₁, p c = true) →
    (∀ c, l₂.head? = some c → p c = false) →
    (l₁ ++ l₂).takeWhile p = l₁ ∧ (l₁ ++ l₂).dropWhile p = l₂ := by
  intro l₁
  induction l₁ with
  | nil =>
    intro l₂ _ h₂
    rw [List.nil_append]
    cases l₂ with
    | nil => exact ⟨rfl, rfl⟩
    | cons c r =>
      have hc := h₂ c rfl
      constructor
      · simp [List.takeWhile_cons, hc]
      · simp [List.dropWhile_cons, hc]
  | cons a l₁ ih =>
    intro l₂ h₁ h₂
    have ha := h₁ a (List.mem_cons_self a l₁)
    have iht := ih l₂ (fun c hc => h₁ c (List.mem_cons_of_mem a hc)) h₂
    constructor
    · simp [List.takeWhile_cons, ha, iht.1]
    · simp [List.dropWhile_cons, ha, iht.2]

theorem dropWhile_head_false {p : Char → Bool} :
    ∀ (l : List Char) (c : Char) (rest : List Char),
    l.dropWhile p = c :: rest → p c = false := by
  intro l
  induction l with
  | nil => intro c rest h; simp at h
  | cons a t ih =>
    intro c rest h
    rw [List.dropWhile_cons] at h
    by_cases hp : p a = true
    · simp only [hp, if_true] at h
      exact ih c rest h
    · have hpf : p a = false := by simpa using hp
      simp only [hpf, Bool.false_eq_true, if_false, List.cons.injEq] at h
      exact h.1 ▸ hpf

/-- C3 (amended): `parse_cli_column s` succeeds with `(t, f)` exactly when
`s` decomposes as word token `t`, a period, word token `f`, and a
remainder not starting with a word character — the two tokens being the
maximal word runs of the start-anchored pattern, trailing characters
ignored.  In particular the empty string, a string with no period, and a
string with an empty type or field part all fail. -/
theorem parse_cli_column_ok_iff (s t f : String) :
    parse_cli_column s = .ok (t, f) ↔ ColumnMatch s t f := by
  constructor
  · intro h
    have h' : (match List.dropWhile isWordChar s.toList with
        | '.' :: rest =>
          if ((List.takeWhile isWordChar s.toList).isEmpty ||
              (List.takeWhile isWordChar rest).isEmpty) = true
          then Except.error PyErr.valueError
          else Except.ok ((⟨List.takeWhile isWordChar s.toList⟩ : String),
                          (⟨List.takeWhile isWordChar rest⟩ : String))
        | _ => Except.error PyErr.valueError) = Except.ok (t, f) := h
    clear h
    split at h'
    · rename_i rest heq
      split at h'
      · exact absurd h' (by simp)
      · rename_i hcond
        simp only [Except.ok.injEq, Prod.mk.injEq] at h'
        obtain ⟨h₁, h₂⟩ := h'
        subst h₁
        subst h₂
        have hcond' : (s.toList.takeWhile isWordChar).isEmpty = false ∧
            (rest.takeWhile isWordChar).isEmpty = false := by
          constructor <;> (revert hcond; cases (s.toList.takeWhile isWordChar).isEmpty <;>
            cases (rest.takeWhile isWordChar).isEmpty <;> simp)
        refine ⟨?_, ?_, ?_, ?_, rest.dropWhile isWordChar, ?_, ?_⟩
        · show s.toList.takeWhile isWordChar ≠ []
          intro hnil
          rw [hnil] at hcond'
          simp at hcond'
        · show rest.takeWhile isWordChar ≠ []
          intro hnil
          rw [hnil] at hcond'
          simp at hcond'
        · exact fun c hc => List.mem_takeWhile_imp hc
        · exact fun c hc => List.mem_takeWhile_imp hc
        · show s.toList = s.toList.takeWhile isWordChar ++
            '.' :: (rest.takeWhile isWordChar ++ rest.dropWhile isWordChar)
          rw [List.takeWhile_append_dropWhile]
          conv_lhs => rw [← List.takeWhile_append_dropWhile (p := isWordChar) (l := s.toList)]
          rw [heq]
        · intro c hc
          cases hr : rest.dropWhile isWordChar with
          | nil => rw [hr] at hc; simp at hc
          | cons c₀ r₀ =>
            rw [hr] at hc
            simp only [List.head?_cons, Option.some.injEq] at hc
            exact hc ▸ dropWhile_head_false rest c₀ r₀ hr
    · exact absurd h' (by simp)
  · rintro ⟨ht0, hf0, htw, hfw, rest, hdecomp, hrest⟩
    have hdot : ∀ c : Char, ('.' :: (f.data ++ rest)).head? = some c → isWordChar c = false := by
      intro c hc
      simp only [List.head?_cons, Option.some.injEq] at hc
      subst hc
      decide
    have h₁ := takeWhile_all_append t.data ('.' :: (f.data ++ rest)) htw hdot
    have h₂ := takeWhile_all_append f.data rest hfw hrest
    have hs : s.toList = t.data ++ '.' :: (f.data ++ rest) := hdecomp
    unfold parse_cli_column
    simp only []
    rw [hs]
    split
    · rename_i rest' heq
      rw [h₁.2, List.cons.injEq] at heq
      have hr' : f.data ++ rest = rest' := heq.2
      subst hr'
      rw [h₁.1, h₂.1]
      rw [if_neg (by
        intro hor
        rcases Bool.or_eq_true_iff.1 hor with he | he
        · exact ht0 (List.isEmpty_iff.1 he)
        · exact hf0 (List.isEmpty_iff.1 he))]
    · rename_i hne
      exact absurd h₁.2 (hne (f.data ++ rest))

/-- C3 (counterexample to the claim as stated): `"GPS.Lat.Extra"` does
not have exactly one period separating two word tokens, yet parsing
succeeds, returning `("GPS", "Lat")` — trailing characters after the
anchored match are ignored. -/
theorem parse_cli_column_claim_false :
    claimWellFormed "GPS.Lat.Extra" = false ∧
    parse_cli_column "GPS.Lat.Extra" = .ok ("GPS", "Lat") := by
  exact ⟨by decide, by decide⟩

/-! ### CSV output shape (C6)

Equation lemmas for the recursive sink loop and the orchestrator, then
the characterization of a successful run's output. -/

theorem writeRows_cons (tc : List (String × List String)) (hdr : List String)
    (m : Message) (rest : List Message) :
    writeRows tc hdr (m :: rest)
      = if (typeKeys tc).contains m.typ then
          match message_to_row m (colsFor tc m.typ) with
          | .error e => ([], some e)
          | .ok row =>
            match writerow hdr row with
            | .error e => ([], some e)
            | .ok line => (line :: (writeRows tc hdr rest).1, (writeRows tc hdr rest).2)
        else writeRows tc hdr rest := rfl

theorem writeRows_cons_err (tc : List (String × List String)) (hdr : List String)
    (m : Message) (rest : List Message) (e : PyErr)
    (hc : (typeKeys tc).contains m.typ = true)
    (hrow : message_to_row m (colsFor tc m.typ) = .error e) :
    writeRows tc hdr (m :: rest) = ([], some e) := by
  rw [writeRows_cons, if_pos hc, hrow]

theorem writeRows_cons_werr (tc : List (String × List String)) (hdr : List String)
    (m : Message) (rest : List Message) (row : List (String × Value)) (e : PyErr)
    (hc : (typeKeys tc).contains m.typ = true)
    (hrow : message_to_row m (colsFor tc m.typ) = .ok row)
    (hw : writerow hdr row = .error e) :
    writeRows tc hdr (m :: rest) = ([], some e) := by
  rw [writeRows_cons, if_pos hc, hrow]
  show (match writerow hdr row with
    | .error e => (([] : List String), some e)
    | .ok line => (line :: (writeRows tc hdr rest).1, (writeRows tc hdr rest).2)) = _
  rw [hw]

theorem writeRows_cons_ok (tc : List (String × List String)) (hdr : List String)
    (m : Message) (rest : List Message) (row : List (String × Value)) (line : String)
    (hc : (typeKeys tc).contains m.typ = true)
    (hrow : message_to_row m (colsFor tc m.typ) = .ok row)
    (hw : writerow hdr row = .ok line) :
    writeRows tc hdr (m :: rest)
      = (line :: (writeRows tc hdr rest).1, (writeRows tc hdr rest).2) := by
  rw [writeRows_cons, if_pos hc, hrow]
  show (match writerow hdr row with
    | .error e => (([] : List String), some e)
    | .ok line => (line :: (writeRows tc hdr rest).1, (writeRows tc hdr rest).2)) = _
  rw [hw]

theorem writeRows_cons_skip (tc : List (String × List String)) (hdr : List String)
    (m : Message) (rest : List Message)
    (hc : (typeKeys tc).contains m.typ = false) :
    writeRows tc hdr (m :: rest) = writeRows tc hdr rest := by
  rw [writeRows_cons, if_neg (by rw [hc]; simp)]

theorem writeRows_ok_eq (tc : List (String × List String)) (columns : List String) :
    ∀ ys : List Message, (writeRows tc (fixedHeader ++ columns) ys).2 = none →
    (writeRows tc (fixedHeader ++ columns) ys).1
      = (ys.filter (fun m => (typeKeys tc).contains m.typ)).map (projectedLine columns tc) := by
  intro ys
  induction ys with
  | nil => intro _; rfl
  | cons m rest ih =>
    intro h
    by_cases hc : (typeKeys tc).contains m.typ = true
    · cases hrow : message_to_row m (colsFor tc m.typ) with
      | error e =>
        rw [writeRows_cons_err tc _ m rest e hc hrow] at h
        exact absurd h (by simp)
      | ok row =>
        cases hw : writerow (fixedHeader ++ columns) row with
        | error e =>
          rw [writeRows_cons_werr tc _ m rest row e hc hrow hw] at h
          exact absurd h (by simp)
        | ok line =>
          rw [writeRows_cons_ok tc _ m rest row line hc hrow hw] at h ⊢
          have hline : line = projectedLine columns tc m := by
            unfold writerow at hw
            by_cases hall : row.all (fun p => (fixedHeader ++ columns).contains p.1) = true
            · rw [if_pos hall] at hw
              injection hw with hw
              unfold projectedLine
              rw [hrow]
              exact hw.symm
            · rw [if_neg hall] at hw
              exact absurd hw (by simp)
          rw [List.filter_cons, if_pos hc, List.map_cons]
          show line :: (writeRows tc (fixedHeader ++ columns) rest).1 = _
          rw [hline, ih h]
    · have hcf : (typeKeys tc).contains m.typ = false := by simpa using hc
      rw [writeRows_cons_skip _ _ _ _ hcf] at h ⊢
      rw [List.filter_cons, if_neg (by rw [hcf]; simp)]
      exact ih h

theorem mavlog2csv_parse_error (stream : List Message) (columns : List String)
    (skip_n_arms : ℤ) (e : PyErr) (hp : parseColumns columns = .error e) :
    mavlog2csv stream columns skip_n_arms = ⟨[], some e⟩ := by
  unfold mavlog2csv
  rw [hp]

theorem mavlog2csv_parse_ok (stream : List Message) (columns : List String)
    (skip_n_arms : ℤ) (parsed : List (String × String))
    (hp : parseColumns columns = .ok parsed) :
    mavlog2csv stream columns skip_n_arms
      = ⟨csvLine (fixedHeader ++ columns) ::
          (writeRows (buildTypeCols parsed) (fixedHeader ++ columns)
            (iter_mavlink_messages stream
              (parsed.map Prod.fst).toFinset skip_n_arms).yielded).1,
        match (writeRows (buildTypeCols parsed) (fixedHeader ++ columns)
            (iter_mavlink_messages stream
              (parsed.map Prod.fst).toFinset skip_n_arms).yielded).2 with
        | some e => some e
        | none => (iter_mavlink_messages stream
            (parsed.map Prod.fst).toFinset skip_n_arms).err⟩ := by
  unfold mavlog2csv
  rw [hp]

/-- C6: whenever a run completes without an exception, its output is the
quoted header line — `TimeUS`, `TimeS`, `Date`, `Time`, then the requested
`Type.Field` strings in the user's order — followed by exactly one line
per accepted record, in stream order, each line listing that record's
projected row read back in header order, every cell of every line
enclosed in double quotes (`csvLine` quotes each cell). -/
theorem csv_output_format (stream : List Message) (columns : List String)
    (skip_n_arms : ℤ)
    (h : (mavlog2csv stream columns skip_n_arms).err = none) :
    (mavlog2csv stream columns skip_n_arms).lines
      = csvLine (fixedHeader ++ columns)
        :: (acceptedOf stream columns skip_n_arms).map
            (projectedLine columns (buildTypeCols (parsedColumnsOf columns))) := by
  cases hp : parseColumns columns with
  | error e =>
    rw [mavlog2csv_parse_error stream columns skip_n_arms e hp] at h
    exact absurd h (by simp)
  | ok parsed =>
    have hparsed : parsedColumnsOf columns = parsed := by
      unfold parsedColumnsOf
      rw [hp]
      rfl
    rw [mavlog2csv_parse_ok stream columns skip_n_arms parsed hp] at h ⊢
    have h3 : (match (writeRows (buildTypeCols parsed) (fixedHeader ++ columns)
        (iter_mavlink_messages stream
          (parsed.map Prod.fst).toFinset skip_n_arms).yielded).2 with
      | some e => some e
      | none => (iter_mavlink_messages stream
          (parsed.map Prod.fst).toFinset skip_n_arms).err) = none := h
    have h2 : (writeRows (buildTypeCols parsed) (fixedHeader ++ columns)
        (iter_mavlink_messages stream
          (parsed.map Prod.fst).toFinset skip_n_arms).yielded).2 = none := by
      cases hc2 : (writeRows (buildTypeCols parsed) (fixedHeader ++ columns)
          (iter_mavlink_messages stream
            (parsed.map Prod.fst).toFinset skip_n_arms).yielded).2 with
      | none => rfl
      | some e =>
        simp only [hc2] at h3
        exact absurd h3 (by simp)
    show csvLine (fixedHeader ++ columns) :: _ = _
    rw [writeRows_ok_eq (buildTypeCols parsed) columns _ h2]
    unfold acceptedOf
    rw [hparsed]

theorem csv_output_format_witness :
    (mavlog2csv [msgTEST1, msgARM, msgOTHER, msgTEST2] ["TEST.col1"] 1).lines
      = csvLine (fixedHeader ++ ["TEST.col1"])
        :: (acceptedOf [msgTEST1, msgARM, msgOTHER, msgTEST2] ["TEST.col1"] 1).map
            (projectedLine ["TEST.col1"] (buildTypeCols (parsedColumnsOf ["TEST.col1"]))) :=
  csv_output_format [msgTEST1, msgARM, msgOTHER, msgTEST2] ["TEST.col1"] 1 (by decide)

/-! ### Records of non-requested types produce no output (C10) -/

theorem iterLoop_cons_bad (skip_n_arms : ℤ) (m : Message) (rest : List Message) (n : ℕ)
    (hb : is_message_bad (some m) = true) :
    iterLoop skip_n_arms (m :: rest) n = iterLoop skip_n_arms rest n := by
  rw [iterLoop, if_pos hb]

theorem iterLoop_cons_ev_noid (skip_n_arms : ℤ) (m : Message) (rest : List Message) (n : ℕ)
    (hb : is_message_bad (some m) = false) (hev : (m.typ == "EV") = true)
    (hv : m.getattr "Id" = none) :
    iterLoop skip_n_arms (m :: rest) n = ⟨[], some .attributeError, n⟩ := by
  rw [iterLoop, if_neg (by rw [hb]; simp), if_pos hev, hv]

theorem iterLoop_cons_ev (skip_n_arms : ℤ) (m : Message) (rest : List Message) (n : ℕ)
    (v : Value) (hb : is_message_bad (some m) = false) (hev : (m.typ == "EV") = true)
    (hv : m.getattr "Id" = some v) :
    iterLoop skip_n_arms (m :: rest) n
      = iterLoop skip_n_arms rest (if pyEq v (.intV 10) then n + 1 else n) := by
  rw [iterLoop, if_neg (by rw [hb]; simp), if_pos hev, hv]

theorem iterLoop_cons_closed (skip_n_arms : ℤ) (m : Message) (rest : List Message) (n : ℕ)
    (hb : is_message_bad (some m) = false) (hev : (m.typ == "EV") = false)
    (hlt : (n : ℤ) < skip_n_arms) :
    iterLoop skip_n_arms (m :: rest) n = iterLoop skip_n_arms rest n := by
  rw [iterLoop, if_neg (by rw [hb]; simp), if_neg (by rw [hev]; simp), if_pos hlt]

theorem iterLoop_cons_yield (skip_n_arms : ℤ) (m : Message) (rest : List Message) (n : ℕ)
    (hb : is_message_bad (some m) = false) (hev : (m.typ == "EV") = false)
    (hge : ¬ ((n : ℤ) < skip_n_arms)) :
    iterLoop skip_n_arms (m :: rest) n
      = ⟨m :: (iterLoop skip_n_arms rest n).yielded,
         (iterLoop skip_n_arms rest n).err, (iterLoop skip_n_arms rest n).armed⟩ := by
  rw [iterLoop, if_neg (by rw [hb]; simp), if_neg (by rw [hev]; simp), if_neg hge]

theorem skip_mid_message (skip_n_arms : ℤ) (tc : List (String × List String))
    (hdr : List String) (m : Message) (hEV : m.typ ≠ "EV")
    (hNot : (typeKeys tc).contains m.typ = false) :
    ∀ (s₁ s₂ : List Message) (n : ℕ),
    writeRows tc hdr (iterLoop skip_n_arms (s₁ ++ m :: s₂) n).yielded
      = writeRows tc hdr (iterLoop skip_n_arms (s₁ ++ s₂) n).yielded ∧
    (iterLoop skip_n_arms (s₁ ++ m :: s₂) n).err
      = (iterLoop skip_n_arms (s₁ ++ s₂) n).err := by
  intro s₁
  induction s₁ with
  | nil =>
    intro s₂ n
    rw [List.nil_append, List.nil_append]
    have hevb : (m.typ == "EV") = false := by rw [beq_eq_false_iff_ne]; exact hEV
    by_cases hb : is_message_bad (some m) = true
    · rw [iterLoop_cons_bad skip_n_arms m s₂ n hb]
      exact ⟨rfl, rfl⟩
    · have hbf : is_message_bad (some m) = false := by simpa using hb
      by_cases hlt : (n : ℤ) < skip_n_arms
      · rw [iterLoop_cons_closed skip_n_arms m s₂ n hbf hevb hlt]
        exact ⟨rfl, rfl⟩
      · rw [iterLoop_cons_yield skip_n_arms m s₂ n hbf hevb hlt]
        exact ⟨writeRows_cons_skip tc hdr m (iterLoop skip_n_arms s₂ n).yielded hNot, rfl⟩
  | cons x s₁ ih =>
    intro s₂ n
    rw [List.cons_append, List.cons_append]
    by_cases hb : is_message_bad (some x) = true
    · rw [iterLoop_cons_bad skip_n_arms x _ n hb, iterLoop_cons_bad skip_n_arms x _ n hb]
      exact ih s₂ n
    · have hbf : is_message_bad (some x) = false := by simpa using hb
      by_cases hev : (x.typ == "EV") = true
      · cases hid : x.getattr "Id" with
        | none =>
          rw [iterLoop_cons_ev_noid skip_n_arms x _ n hbf hev hid,
              iterLoop_cons_ev_noid skip_n_arms x _ n hbf hev hid]
          exact ⟨rfl, rfl⟩
        | some v =>
          rw [iterLoop_cons_ev skip_n_arms x _ n v hbf hev hid,
              iterLoop_cons_ev skip_n_arms x _ n v hbf hev hid]
          exact ih s₂ _
      · have hevf : (x.typ == "EV") = false := by simpa using hev
        by_cases hlt : (n : ℤ) < skip_n_arms
        · rw [iterLoop_cons_closed skip_n_arms x _ n hbf hevf hlt,
              iterLoop_cons_closed skip_n_arms x _ n hbf hevf hlt]
          exact ih s₂ n
        · rw [iterLoop_cons_yield skip_n_arms x _ n hbf hevf hlt,
              iterLoop_cons_yield skip_n_arms x _ n hbf hevf hlt]
          obtain ⟨ihw, ihe⟩ := ih s₂ n
          refine ⟨?_, ihe⟩
          show writeRows tc hdr (x :: (iterLoop skip_n_arms (s₁ ++ m :: s₂) n).yielded)
            = writeRows tc hdr (x :: (iterLoop skip_n_arms (s₁ ++ s₂) n).yielded)
          by_cases hcx : (typeKeys tc).contains x.typ = true
          · cases hrow : message_to_row x (colsFor tc x.typ) with
            | error e =>
              rw [writeRows_cons_err tc hdr x _ e hcx hrow,
                  writeRows_cons_err tc hdr x _ e hcx hrow]
            | ok row =>
              cases hw : writerow hdr row with
              | error e =>
                rw [writeRows_cons_werr tc hdr x _ row e hcx hrow hw,
                    writeRows_cons_werr tc hdr x _ row e hcx hrow hw]
              | ok line =>
                rw [writeRows_cons_ok tc hdr x _ row line hcx hrow hw,
                    writeRows_cons_ok tc hdr x _ row line hcx hrow hw, ihw]
          · have hcxf : (typeKeys tc).contains x.typ = false := by simpa using hcx
            rw [writeRows_cons_skip tc hdr x _ hcxf, writeRows_cons_skip tc hdr x _ hcxf, ihw]

/-- C10: a record whose type has no requested column produces no output:
inserting such a (non-sentinel) record anywhere in the source stream
leaves the whole CSV run — every line written and the final error state —
unchanged; hence every data row comes from a record of a single requested
type. -/
theorem non_requested_type_no_row (s₁ s₂ : List Message) (m : Message)
    (columns : List String) (skip_n_arms : ℤ)
    (hEV : m.typ ≠ "EV")
    (hNot : (typeKeys (buildTypeCols (parsedColumnsOf columns))).contains m.typ = false) :
    mavlog2csv (s₁ ++ m :: s₂) columns skip_n_arms
      = mavlog2csv (s₁ ++ s₂) columns skip_n_arms := by
  cases hp : parseColumns columns with
  | error e =>
    rw [mavlog2csv_parse_error _ _ _ e hp, mavlog2csv_parse_error _ _ _ e hp]
  | ok parsed =>
    have hparsed : parsedColumnsOf columns = parsed := by
      unfold parsedColumnsOf
      rw [hp]
      rfl
    rw [hparsed] at hNot
    rw [mavlog2csv_parse_ok _ _ _ parsed hp, mavlog2csv_parse_ok _ _ _ parsed hp]
    obtain ⟨hw, he⟩ := skip_mid_message skip_n_arms (buildTypeCols parsed)
      (fixedHeader ++ columns) m hEV hNot s₁ s₂ 0
    have hw' : writeRows (buildTypeCols parsed) (fixedHeader ++ columns)
        (iter_mavlink_messages (s₁ ++ m :: s₂)
          (parsed.map Prod.fst).toFinset skip_n_arms).yielded
      = writeRows (buildTypeCols parsed) (fixedHeader ++ columns)
        (iter_mavlink_messages (s₁ ++ s₂)
          (parsed.map Prod.fst).toFinset skip_n_arms).yielded := hw
    have he' : (iter_mavlink_messages (s₁ ++ m :: s₂)
          (parsed.map Prod.fst).toFinset skip_n_arms).err
      = (iter_mavlink_messages (s₁ ++ s₂)
          (parsed.map Prod.fst).toFinset skip_n_arms).err := he
    rw [hw', he']

theorem non_requested_type_no_row_witness :
    msgOTHER.typ ≠ "EV" ∧
    (typeKeys (buildTypeCols (parsedColumnsOf ["TEST.col1"]))).contains msgOTHER.typ
      = false ∧
    mavlog2csv ([msgTEST1] ++ msgOTHER :: [msgTEST2]) ["TEST.col1"] 0
      = mavlog2csv ([msgTEST1] ++ [msgTEST2]) ["TEST.col1"] 0 :=
  ⟨by decide, by decide,
    non_requested_type_no_row [msgTEST1] [msgTEST2] msgOTHER ["TEST.col1"] 0
      (by decide) (by decide)⟩

end Mavlog
